import Mathlib

/-
Verification development for the BiblioDrift shelf store and reconciler.

The definitions below are a shallow embedding of the client library code
(class LibraryManager and class BookshelfRenderer3D): the three named
shelves, the book records stored on them, the pull-merge performed by
syncWithBackend, the pending-upload selection of syncLocalToBackend, and
the add, move and remove operations.  JavaScript objects become Lean
structures, arrays become lists, the Map used by the merge becomes an
association list with last-write-wins set semantics, and the console or
toast side effects that a caller can observe become explicit result
fields.
-/

set_option maxHeartbeats 1000000

namespace BiblioDrift

/-- The three fixed shelf names: the keys of the library object
`{ current: [], want: [], finished: [] }`. -/
inductive Shelf where
  | current
  | want
  | finished
deriving DecidableEq, Repr

/-- The `volumeInfo` sub-object of a book record: title, author list and
thumbnail link, as stored by the client. -/
structure VolumeInfo where
  title : String
  authors : List String
  thumbnail : Option String
deriving DecidableEq, Repr

/-- One book record as stored in the local library.  `id` is the catalog
identifier (externalId), `db_id` the backend row identifier (serverId,
absent until synced), `progress` the reading progress (null unless on the
current shelf), `date_added` the creation timestamp string. -/
structure Book where
  id : String
  db_id : Option Nat
  volumeInfo : VolumeInfo
  progress : Option Int
  date_added : String
deriving DecidableEq, Repr

/-- The persisted library object: one ordered list of book records per
shelf, key order current, want, finished as in the constructor literal. -/
structure Library where
  current : List Book
  want : List Book
  finished : List Book
deriving DecidableEq, Repr

/-- Read the record list of one shelf, `library[shelf]`. -/
def Library.get (lib : Library) : Shelf → List Book
  | .current => lib.current
  | .want => lib.want
  | .finished => lib.finished

/-- Replace the record list of one shelf, `library[shelf] = l`. -/
def Library.set (lib : Library) : Shelf → List Book → Library
  | .current, l => { lib with current := l }
  | .want, l => { lib with want := l }
  | .finished, l => { lib with finished := l }

/-- The default empty collection `{ current: [], want: [], finished: [] }`. -/
def emptyLibrary : Library := ⟨[], [], []⟩

/-- The sublist of records of a shelf list that carry a given externalId,
in order.  Used to state how many records with an id a shelf holds and
which they are. -/
def idRecords (l : List Book) (k : String) : List Book :=
  match l with
  | [] => []
  | b :: rest => if b.id = k then b :: idRecords rest k else idRecords rest k

/-- Number of records with a given externalId on one shelf list. -/
def countId (l : List Book) (k : String) : Nat :=
  (idRecords l k).length

/-- Total number of records with a given externalId across the three
shelves. -/
def totalCount (lib : Library) (k : String) : Nat :=
  countId lib.current k + countId lib.want k + countId lib.finished k

/-- Number of shelves that hold at least one record with the given
externalId. -/
def shelfCount (lib : Library) (k : String) : Nat :=
  (if countId lib.current k ≠ 0 then 1 else 0)
    + (if countId lib.want k ≠ 0 then 1 else 0)
    + (if countId lib.finished k ≠ 0 then 1 else 0)

/-- Each externalId appears on at most one shelf (the cross-shelf
uniqueness reading that counts shelves, not records). -/
def ShelfUnique (lib : Library) : Prop :=
  ∀ k : String, shelfCount lib k ≤ 1

/-- Each externalId appears at most once in the whole collection. -/
def UniqueIds (lib : Library) : Prop :=
  ∀ k : String, totalCount lib k ≤ 1

namespace LibraryManager

/-- `findBook(id)`: true when some shelf holds a record with the id.
Source iterates the object keys in order current, want, finished. -/
def findBook (lib : Library) (id : String) : Bool :=
  lib.current.any (fun b => b.id = id)
    || lib.want.any (fun b => b.id = id)
    || lib.finished.any (fun b => b.id = id)

/-- `findBookShelf(id)`: the first shelf, in key order current, want,
finished, holding a record with the id. -/
def findBookShelf (lib : Library) (id : String) : Option Shelf :=
  if lib.current.any (fun b => b.id = id) then some .current
  else if lib.want.any (fun b => b.id = id) then some .want
  else if lib.finished.any (fun b => b.id = id) then some .finished
  else none

/-- `findBookInShelf(id)`: the first shelf holding the id together with
the first matching record on it. -/
def findBookInShelf (lib : Library) (id : String) : Option (Shelf × Book) :=
  match lib.current.find? (fun b => b.id = id) with
  | some b => some (.current, b)
  | none =>
    match lib.want.find? (fun b => b.id = id) with
    | some b => some (.want, b)
    | none =>
      match lib.finished.find? (fun b => b.id = id) with
      | some b => some (.finished, b)
      | none => none

/-- The local-state effect of `removeBook(id)`: when the id is found on a
shelf, that shelf is filtered by `b.id !== id` and the result saved; the
boolean is the return value of the source function. -/
def removeBookLocal (lib : Library) (id : String) : Bool × Library :=
  match findBookInShelf lib id with
  | some (s, _) => (true, lib.set s ((lib.get s).filter (fun b => b.id ≠ id)))
  | none => (false, lib)

/-- The in-memory library paired with the persisted copy held by the
underlying key-value store; `saveLocally()` copies the former onto the
latter. -/
structure LMState where
  library : Library
  stored : Library
deriving DecidableEq, Repr

/-- `removeBook(id)` acting on memory and persistent storage: the true
branch mutates the shelf and calls `saveLocally()`, the false branch
touches nothing. -/
def removeBookState (st : LMState) (id : String) : Bool × LMState :=
  match findBookInShelf st.library id with
  | some (s, _) =>
    let lib := st.library.set s ((st.library.get s).filter (fun b => b.id ≠ id))
    (true, ⟨lib, lib⟩)
  | none => (false, st)

/-- The enriched record pushed by `addBook`: the argument spread with
progress reset (0 on the current shelf, null otherwise) and a fresh
`date_added` timestamp. -/
def enrich (now : String) (book : Book) (shelf : Shelf) : Book :=
  { book with
    progress := if shelf = .current then some 0 else none
    date_added := now }

/-- The local-state effect of `addBook(book, shelf)`.  When the id is
already on the target shelf the function returns early (a toast only);
when it is on another shelf the source calls `removeBook` and falls
through to the push (an implicit move); otherwise it just pushes the
enriched record.  The source never throws on this path. -/
def addBook (now : String) (lib : Library) (book : Book) (shelf : Shelf) : Library :=
  let afterDup :=
    if findBook lib book.id then
      match findBookShelf lib book.id with
      | some es => if es = shelf then none else some (removeBookLocal lib book.id).2
      | none => some lib
    else some lib
  match afterDup with
  | none => lib
  | some lib1 => lib1.set shelf ((lib1.get shelf) ++ [enrich now book shelf])

end LibraryManager

namespace BookshelfRenderer3D

/-- `findIndex` followed by `splice(index, 1)`: the first record matching
the predicate together with the list with that one occurrence removed. -/
def extractFirst (p : Book → Bool) : List Book → Option (Book × List Book)
  | [] => none
  | b :: rest =>
    if p b then some (b, rest)
    else (extractFirst p rest).map (fun x => (x.1, b :: x.2))

/-- Outcome of `moveBook`: the library written back, and the message sent
to `console.error` when the book is missing from the source shelf.  The
source function never throws; its only failure signal is that log line. -/
structure MoveResult where
  library : Library
  consoleError : Option String
deriving DecidableEq, Repr

/-- `moveBook(bookId, fromShelf, toShelf)`: early return when the two
shelves coincide; otherwise the first record with the id is spliced out
of the source shelf and pushed onto the target shelf, and a missing
record only logs `Book not found in source shelf`.  The guard
`b.id === bookId || (b.volumeInfo && b.id === bookId)` reduces to the
plain id test. -/
def moveBook (lib : Library) (bookId : String) (fromShelf toShelf : Shelf) : MoveResult :=
  if fromShelf = toShelf then ⟨lib, none⟩
  else
    match extractFirst (fun b => b.id = bookId) (lib.get fromShelf) with
    | none => ⟨lib, some "Book not found in source shelf"⟩
    | some (book, rest) =>
      let lib1 := lib.set fromShelf rest
      ⟨lib1.set toShelf ((lib1.get toShelf) ++ [book]), none⟩

end BookshelfRenderer3D

namespace LibraryManager

/-- One item of the remote snapshot `data.library` as consumed by
`syncWithBackend`: the catalog id, the backend row id, the flat metadata
fields, the shelf tag and the creation timestamp.  The backend item
carries no progress field. -/
structure RemoteItem where
  google_books_id : String
  id : Nat
  title : String
  authors : Option String
  thumbnail : Option String
  shelf_type : Shelf
  created_at : Option String
deriving DecidableEq, Repr

/-- `item.authors ? item.authors.split(', ') : []`: a missing or empty
author string is falsy and yields the empty list. -/
def authorsList : Option String → List String
  | none => []
  | some s => if s = "" then [] else s.splitOn ", "

/-- `item.created_at || new Date().toISOString()`: an absent or empty
timestamp is falsy and is replaced by the current time. -/
def createdAt (now : String) : Option String → String
  | none => now
  | some s => if s = "" then now else s

/-- The `remoteBook` object built for one snapshot item: catalog id,
backend id as `db_id`, remote metadata, and progress taken from the
matching local record when one exists, else 0 on the current shelf and
null otherwise. -/
def remoteBook (now : String) (existing : Option (Book × Shelf)) (item : RemoteItem) : Book :=
  { id := item.google_books_id
    db_id := some item.id
    volumeInfo :=
      { title := item.title
        authors := authorsList item.authors
        thumbnail := item.thumbnail }
    progress :=
      match existing with
      | some e => e.1.progress
      | none => if item.shelf_type = .current then some 0 else none
    date_added := createdAt now item.created_at }

/-- The `localBooksMap`: a JavaScript Map from externalId to the record
and its shelf, embedded as an association list where `set` overwrites any
earlier binding of the key. -/
abbrev BookMap := List (String × Book × Shelf)

/-- `Map.set`: any earlier binding of the key is overwritten. -/
def msSet (m : BookMap) (k : String) (v : Book × Shelf) : BookMap :=
  m.filter (fun q => q.1 ≠ k) ++ [(k, v)]

/-- `Map.get`: the binding of the key, if any. -/
def msGet (m : BookMap) (k : String) : Option (Book × Shelf) :=
  (m.find? (fun q => q.1 = k)).map (fun q => q.2)

/-- `Map.delete`: drop the binding of the key. -/
def msDel (m : BookMap) (k : String) : BookMap :=
  m.filter (fun q => q.1 ≠ k)

/-- Register every record of one shelf list in the map, in list order. -/
def addShelfToMap (m : BookMap) (l : List Book) (s : Shelf) : BookMap :=
  l.foldl (fun m b => msSet m b.id (b, s)) m

/-- Build `localBooksMap` from the local library, shelves visited in the
order current, want, finished. -/
def buildMap (lib : Library) : BookMap :=
  addShelfToMap (addShelfToMap (addShelfToMap [] lib.current .current) lib.want .want)
    lib.finished .finished

/-- Process one snapshot item against the evolving library and map, the
body of the `data.library.forEach` loop of `syncWithBackend`.  A matched
record on a different shelf is filtered out of its old shelf and the
remote book pushed onto the remote shelf; a matched record on the same
shelf is overwritten field by field in place (the `Object.assign`,
embedded as updating the records with that id on that shelf); a
matched id is then deleted from the map; an unmatched item is pushed
onto its shelf, which always exists for the three shelf names. -/
def processItem (now : String) (st : Library × BookMap) (item : RemoteItem) :
    Library × BookMap :=
  let lib := st.1
  let m := st.2
  match msGet m item.google_books_id with
  | some (b, s) =>
    let rb := remoteBook now (some (b, s)) item
    if s ≠ item.shelf_type then
      let lib1 := lib.set s ((lib.get s).filter (fun x => x.id ≠ item.google_books_id))
      let lib2 := lib1.set item.shelf_type ((lib1.get item.shelf_type) ++ [rb])
      (lib2, msDel m item.google_books_id)
    else
      let lib1 := lib.set s
        ((lib.get s).map (fun x => if x.id = item.google_books_id then rb else x))
      (lib1, msDel m item.google_books_id)
  | none =>
    (lib.set item.shelf_type ((lib.get item.shelf_type) ++ [remoteBook now none item]), m)

/-- The pull-merge of `syncWithBackend`: index the local records, fold the
snapshot items through `processItem`, and keep every local record the
snapshot never matched. -/
def mergeRemoteIntoLocal (now : String) (lib : Library) (items : List RemoteItem) : Library :=
  (items.foldl (processItem now) (lib, buildMap lib)).1

/-- JavaScript truthiness of the optional backend id: absent or zero is
falsy. -/
def truthyId : Option Nat → Bool
  | none => false
  | some n => n ≠ 0

/-- The `itemsToSync` selection of `syncLocalToBackend`: every record
across the shelves, visited in the order current, want, finished, whose
`db_id` is falsy, each paired with its shelf tag. -/
def itemsToSync (lib : Library) : List (Book × Shelf) :=
  ((lib.current.filter (fun b => !truthyId b.db_id)).map (fun b => (b, Shelf.current)))
    ++ ((lib.want.filter (fun b => !truthyId b.db_id)).map (fun b => (b, Shelf.want)))
    ++ ((lib.finished.filter (fun b => !truthyId b.db_id)).map (fun b => (b, Shelf.finished)))

end LibraryManager

/-- A JSON value, for the model of what `localStorage` may hold under the
library key. -/
inductive Json where
  | null
  | bool (b : Bool)
  | num (n : Int)
  | str (s : String)
  | arr (xs : List Json)
  | obj (fields : List (String × Json))

/-- JavaScript truthiness of a parsed JSON value: null, false, zero and
the empty string are falsy, everything else including any object or
array is truthy. -/
def Json.truthy : Json → Bool
  | .null => false
  | .bool b => b
  | .num n => n ≠ 0
  | .str s => s ≠ ""
  | .arr _ => true
  | .obj _ => true

/-- The default collection written as JSON:
`{ current: [], want: [], finished: [] }`. -/
def defaultLibraryJson : Json :=
  .obj [("current", .arr []), ("want", .arr []), ("finished", .arr [])]

/-- State of the persistent storage under the library key: the key may be
absent, present but not valid JSON, or present and parsing to a JSON
value. -/
inductive StorageState where
  | absent
  | invalidJson
  | parsed (j : Json)

/-- `JSON.parse(localStorage.getItem(key))`: an absent key gives null
(getItem returns null, which parses to the JSON null), invalid JSON
throws a SyntaxError, and valid JSON gives its value. -/
def parseStorage : StorageState → Except String Json
  | .absent => .ok .null
  | .invalidJson => .error "SyntaxError"
  | .parsed j => .ok j

/-- The load of the constructor,
`JSON.parse(localStorage.getItem(this.storageKey)) || default`: the
parse result when truthy, the default collection when falsy, and the
propagated SyntaxError when the parse throws.  There is no try or catch
around the parse in the source. -/
def loadLibrary (st : StorageState) : Except String Json :=
  (parseStorage st).map (fun j => if j.truthy then j else defaultLibraryJson)

/-- One user-driven mutation for the uniqueness-invariant claim: an
`addBook` call or a `moveBook` call. -/
inductive Op where
  | add (now : String) (book : Book) (shelf : Shelf)
  | move (bookId : String) (fromShelf toShelf : Shelf)

/-- Apply one operation to the library. -/
def applyOp (lib : Library) : Op → Library
  | .add now b s => LibraryManager.addBook now lib b s
  | .move id f t => (BookshelfRenderer3D.moveBook lib id f t).library

/-- Apply a sequence of operations in order. -/
def runOps (lib : Library) (ops : List Op) : Library :=
  ops.foldl applyOp lib

/-- Fixture metadata. -/
def vbT : VolumeInfo := ⟨"T", ["A"], none⟩

/-- Fixture record b1 with no backend id and no progress. -/
def bookB1 : Book := ⟨"b1", none, vbT, none, "d0"⟩

/-- Fixture record b1 with no backend id and progress 40. -/
def bookB1Progress : Book := ⟨"b1", none, vbT, some 40, "d0"⟩

/-- Fixture record b2 carrying a backend id. -/
def bookB2 : Book := ⟨"b2", some 5, vbT, none, "d1"⟩

/-- Library holding only b1, on the want shelf. -/
def libWantB1 : Library := ⟨[], [bookB1], []⟩

/-- Library holding b1 with progress 40 on the current shelf. -/
def libCurrentB1P : Library := ⟨[bookB1Progress], [], []⟩

/-- Library holding the record b1 twice on the want shelf: b1 still
appears on only one shelf. -/
def libDupWant : Library := ⟨[], [bookB1, bookB1], []⟩

/-- Snapshot item: b1 under finished, backend id 7. -/
def itemFinished7 : LibraryManager.RemoteItem :=
  ⟨"b1", 7, "T", some "A", none, .finished, some "c"⟩

/-- Snapshot item: b1 under want, backend id 3. -/
def itemWant3 : LibraryManager.RemoteItem :=
  ⟨"b1", 3, "T", none, none, .want, none⟩

/-- Snapshot item: b1 under current, backend id 9, fresh metadata. -/
def itemCurrent9 : LibraryManager.RemoteItem :=
  ⟨"b1", 9, "T2", some "A, B", some "u", .current, none⟩

/-- Library holding only b2 (which has a backend id), on the finished
shelf. -/
def libFinishedB2 : Library := ⟨[], [], [bookB2]⟩

theorem Library.get_set (lib : Library) (s s' : Shelf) (l : List Book) :
    (lib.set s l).get s' = if s' = s then l else lib.get s' := by
  cases s <;> cases s' <;> simp [Library.get, Library.set]

theorem totalCount_eq_get (lib : Library) (k : String) :
    totalCount lib k
      = countId (lib.get .current) k + countId (lib.get .want) k
        + countId (lib.get .finished) k := rfl

theorem idRecords_append (l l' : List Book) (k : String) :
    idRecords (l ++ l') k = idRecords l k ++ idRecords l' k := by
  induction l with
  | nil => simp [idRecords]
  | cons b rest ih => by_cases h : b.id = k <;> simp [idRecords, h, ih]

theorem idRecords_filter_self (l : List Book) (k : String) :
    idRecords (l.filter (fun x => x.id ≠ k)) k = [] := by
  induction l with
  | nil => rfl
  | cons b rest ih =>
    simp only [ne_eq, decide_not] at ih ⊢
    by_cases h : b.id = k <;> simp [List.filter_cons, h, idRecords, ih]

theorem idRecords_filter_keep (l : List Book) (k g : String) (hkg : k ≠ g) :
    idRecords (l.filter (fun x => x.id ≠ g)) k = idRecords l k := by
  induction l with
  | nil => rfl
  | cons b rest ih =>
    simp only [ne_eq, decide_not] at ih ⊢
    by_cases h : b.id = g
    · have hk : ¬ b.id = k := fun hh => hkg (hh ▸ h)
      have hgk : ¬ g = k := fun hh => hkg hh.symm
      simp [List.filter_cons, h, idRecords, hk, hgk, ih]
    · by_cases h2 : b.id = k <;> simp [List.filter_cons, h, h2, hkg, idRecords, ih]

theorem idRecords_map_update (l : List Book) (g k : String) (rb : Book) (hrb : rb.id = g) :
    idRecords (l.map (fun x => if x.id = g then rb else x)) k
      = (idRecords l k).map (fun x => if x.id = g then rb else x) := by
  induction l with
  | nil => rfl
  | cons b rest ih =>
    by_cases h : b.id = g
    · by_cases h2 : g = k
      · subst h2; simp [idRecords, h, hrb, ih]
      · simp [idRecords, h, h2, hrb, ih]
    · by_cases h2 : b.id = k
      · have hkg : ¬ k = g := fun hh => h (h2.trans hh)
        simp [idRecords, h, h2, hkg, ih]
      · simp [idRecords, h, h2, ih]

theorem mem_filter_ne {b : Book} {l : List Book} (g : String) (hb : b ∈ l) (hne : b.id ≠ g) :
    b ∈ l.filter (fun x => x.id ≠ g) := by
  simp [List.mem_filter, hb, hne]

theorem mem_idRecords {b : Book} {l : List Book} (hb : b ∈ l) (hid : b.id = k) :
    b ∈ idRecords l k := by
  induction l with
  | nil => simp at hb
  | cons x rest ih =>
    rcases List.mem_cons.mp hb with h | h
    · subst h; simp [idRecords, hid]
    · by_cases hx : x.id = k <;> simp [idRecords, hx, ih h]

theorem idRecords_eq_nil_of_any_false {l : List Book} {k : String}
    (h : l.any (fun b => b.id = k) = false) : idRecords l k = [] := by
  induction l with
  | nil => rfl
  | cons b rest ih =>
    simp only [List.any_cons, Bool.or_eq_false_iff] at h
    have hb : ¬ b.id = k := by simpa using h.1
    simp [idRecords, hb, ih h.2]

theorem any_eq_true_of_idRecords {l : List Book} {k : String} {b : Book}
    (h : idRecords l k = b :: tl) : l.any (fun x => x.id = k) = true := by
  induction l with
  | nil => simp [idRecords] at h
  | cons x rest ih =>
    by_cases hx : x.id = k
    · simp [List.any_cons, hx]
    · simp only [idRecords, if_neg hx] at h
      simp [List.any_cons, ih h]

theorem find?_eq_none_of_idRecords_nil {l : List Book} {k : String}
    (h : idRecords l k = []) : l.find? (fun x => x.id = k) = none := by
  induction l with
  | nil => rfl
  | cons b rest ih =>
    by_cases hb : b.id = k
    · simp [idRecords, hb] at h
    · simp only [idRecords, if_neg hb] at h
      simp [List.find?_cons, hb, ih h]

theorem find?_eq_some_of_idRecords_cons {l tl : List Book} {k : String} {b : Book}
    (h : idRecords l k = b :: tl) : l.find? (fun x => x.id = k) = some b := by
  induction l with
  | nil => simp [idRecords] at h
  | cons x rest ih =>
    by_cases hx : x.id = k
    · simp only [idRecords, if_pos hx, List.cons.injEq] at h
      obtain ⟨rfl, -⟩ := h
      simp [List.find?_cons, hx]
    · simp only [idRecords, if_neg hx] at h
      simp [List.find?_cons, hx, ih h]

theorem length_filter_ne_add_countId (l : List Book) (k : String) :
    (l.filter (fun x => x.id ≠ k)).length + countId l k = l.length := by
  induction l with
  | nil => rfl
  | cons b rest ih =>
    simp only [ne_eq, decide_not, countId] at ih ⊢
    by_cases h : b.id = k <;>
      · simp [List.filter_cons, h, idRecords]
        omega

namespace LibraryManager

theorem msGet_nil (k : String) : msGet [] k = none := rfl

theorem find?_filter_keyNe (m : BookMap) (g k : String) :
    ((m.filter (fun q => q.1 ≠ g)).find? (fun q => q.1 = k))
      = if k = g then none else m.find? (fun q => q.1 = k) := by
  induction m with
  | nil => by_cases h : k = g <;> simp [h]
  | cons q m ih =>
    simp only [ne_eq, decide_not] at ih ⊢
    by_cases hq : q.1 = g
    · by_cases hk : k = g <;> by_cases hqk : q.1 = k <;>
        simp_all [List.filter_cons, List.find?_cons]
    · by_cases hk : k = g <;> by_cases hqk : q.1 = k <;>
        simp_all [List.filter_cons, List.find?_cons]

theorem msGet_set (m : BookMap) (g k : String) (v : Book × Shelf) :
    msGet (msSet m g v) k = if k = g then some v else msGet m k := by
  unfold msGet msSet
  rw [List.find?_append, find?_filter_keyNe]
  by_cases h : k = g
  · simp [h, List.find?_cons]
  · have hg : ¬ g = k := fun hh => h hh.symm
    simp [h]
    cases m.find? (fun q => q.1 = k) with
    | none => simp [List.find?_cons, hg]
    | some q => simp

theorem msGet_del (m : BookMap) (g k : String) :
    msGet (msDel m g) k = if k = g then none else msGet m k := by
  unfold msGet msDel
  rw [find?_filter_keyNe]
  by_cases h : k = g <;> simp [h]

theorem msGet_addShelf_not_mem (l : List Book) (s : Shelf) (k : String)
    (h : idRecords l k = []) (m : BookMap) :
    msGet (addShelfToMap m l s) k = msGet m k := by
  induction l generalizing m with
  | nil => rfl
  | cons b rest ih =>
    have hb : ¬ b.id = k := by
      intro hh
      simp [idRecords, hh] at h
    have hr : idRecords rest k = [] := by simpa [idRecords, hb] using h
    have step : addShelfToMap m (b :: rest) s = addShelfToMap (msSet m b.id (b, s)) rest s := rfl
    have hkb : ¬ k = b.id := fun hh => hb hh.symm
    rw [step, ih hr, msGet_set, if_neg hkb]

theorem msGet_addShelf_unique (l : List Book) (s : Shelf) (k : String) (b : Book)
    (h : idRecords l k = [b]) (m : BookMap) :
    msGet (addShelfToMap m l s) k = some (b, s) := by
  induction l generalizing m with
  | nil => simp [idRecords] at h
  | cons x rest ih =>
    have step : addShelfToMap m (x :: rest) s = addShelfToMap (msSet m x.id (x, s)) rest s := rfl
    by_cases hx : x.id = k
    · simp only [idRecords, if_pos hx, List.cons.injEq] at h
      obtain ⟨rfl, hrest⟩ := h
      rw [step, msGet_addShelf_not_mem rest s k hrest, msGet_set]
      simp [hx]
    · simp only [idRecords, if_neg hx] at h
      rw [step]
      exact ih h _

theorem buildMap_lookup_none (lib : Library) (k : String)
    (h : ∀ sh, idRecords (lib.get sh) k = []) :
    msGet (buildMap lib) k = none := by
  unfold buildMap
  have hc : idRecords lib.current k = [] := h .current
  have hw : idRecords lib.want k = [] := h .want
  have hf : idRecords lib.finished k = [] := h .finished
  rw [msGet_addShelf_not_mem _ _ _ hf, msGet_addShelf_not_mem _ _ _ hw,
    msGet_addShelf_not_mem _ _ _ hc]
  rfl

theorem buildMap_lookup_unique (lib : Library) (k : String) (b : Book) (s : Shelf)
    (h : ∀ sh, idRecords (lib.get sh) k = if sh = s then [b] else []) :
    msGet (buildMap lib) k = some (b, s) := by
  unfold buildMap
  cases s with
  | current =>
    have hf : idRecords lib.finished k = [] := by simpa using h .finished
    have hw : idRecords lib.want k = [] := by simpa using h .want
    have hc : idRecords lib.current k = [b] := by simpa using h .current
    rw [msGet_addShelf_not_mem _ _ _ hf, msGet_addShelf_not_mem _ _ _ hw]
    exact msGet_addShelf_unique _ _ _ _ hc _
  | want =>
    have hf : idRecords lib.finished k = [] := by simpa using h .finished
    have hw : idRecords lib.want k = [b] := by simpa using h .want
    rw [msGet_addShelf_not_mem _ _ _ hf]
    exact msGet_addShelf_unique _ _ _ _ hw _
  | finished =>
    have hf : idRecords lib.finished k = [b] := by simpa using h .finished
    exact msGet_addShelf_unique _ _ _ _ hf _

theorem idRecords_id_eq {l : List Book} {k : String} : ∀ x ∈ idRecords l k, x.id = k := by
  induction l with
  | nil => simp [idRecords]
  | cons b rest ih =>
    by_cases h : b.id = k
    · simp only [idRecords, if_pos h]
      intro x hx
      rcases List.mem_cons.mp hx with hh | hh
      · exact hh ▸ h
      · exact ih x hh
    · simp only [idRecords, if_neg h]
      exact ih

theorem idRecords_map_update_other (l : List Book) (g k : String) (rb : Book)
    (hrb : rb.id = g) (hkg : k ≠ g) :
    idRecords (l.map (fun x => if x.id = g then rb else x)) k = idRecords l k := by
  induction l with
  | nil => rfl
  | cons b rest ih =>
    by_cases h : b.id = g
    · have hbk : ¬ b.id = k := fun hh => hkg (hh.symm.trans h)
      have hrbk : ¬ rb.id = k := fun hh => hkg (hh.symm.trans hrb)
      have hgk : ¬ g = k := fun hh => hkg hh.symm
      simp [idRecords, h, hbk, hrbk, hgk, ih]
    · by_cases h2 : b.id = k <;> simp [idRecords, h, h2, hkg, ih]

theorem processItem_conflict (now : String) (st : Library × BookMap) (item : RemoteItem)
    (b : Book) (s : Shelf) (hm : msGet st.2 item.google_books_id = some (b, s))
    (hs : s ≠ item.shelf_type) :
    processItem now st item
      = ((st.1.set s ((st.1.get s).filter (fun x => x.id ≠ item.google_books_id))).set
           item.shelf_type
           (((st.1.set s ((st.1.get s).filter
               (fun x => x.id ≠ item.google_books_id))).get item.shelf_type)
             ++ [remoteBook now (some (b, s)) item]),
         msDel st.2 item.google_books_id) := by
  simp only [processItem]
  rw [hm]
  simp [hs]

theorem processItem_same (now : String) (st : Library × BookMap) (item : RemoteItem)
    (b : Book) (s : Shelf) (hm : msGet st.2 item.google_books_id = some (b, s))
    (hs : s = item.shelf_type) :
    processItem now st item
      = (st.1.set s ((st.1.get s).map (fun x =>
           if x.id = item.google_books_id then remoteBook now (some (b, s)) item else x)),
         msDel st.2 item.google_books_id) := by
  simp only [processItem]
  rw [hm]
  simp [hs]

theorem processItem_new (now : String) (st : Library × BookMap) (item : RemoteItem)
    (hm : msGet st.2 item.google_books_id = none) :
    processItem now st item
      = (st.1.set item.shelf_type
           ((st.1.get item.shelf_type) ++ [remoteBook now none item]), st.2) := by
  simp only [processItem]
  rw [hm]

theorem remoteBook_id (now : String) (ex : Option (Book × Shelf)) (item : RemoteItem) :
    (remoteBook now ex item).id = item.google_books_id := rfl

theorem idRecords_single_remoteBook_ne (now : String) (ex : Option (Book × Shelf))
    (item : RemoteItem) (k : String) (hk : item.google_books_id ≠ k) :
    idRecords [remoteBook now ex item] k = [] := by
  simp [idRecords, remoteBook, hk]

theorem processItem_preserve (now : String) (st : Library × BookMap) (item : RemoteItem)
    (k : String) (hk : item.google_books_id ≠ k) :
    (∀ sh, idRecords ((processItem now st item).1.get sh) k = idRecords (st.1.get sh) k)
      ∧ msGet (processItem now st item).2 k = msGet st.2 k := by
  have hkg : k ≠ item.google_books_id := fun hh => hk hh.symm
  cases hm : msGet st.2 item.google_books_id with
  | none =>
    rw [processItem_new now st item hm]
    refine ⟨fun sh => ?_, rfl⟩
    rw [Library.get_set]
    by_cases hsh : sh = item.shelf_type
    · subst hsh
      rw [if_pos rfl, idRecords_append, idRecords_single_remoteBook_ne now none item k hk,
        List.append_nil]
    · rw [if_neg hsh]
  | some bs =>
    obtain ⟨b, s⟩ := bs
    by_cases hsb : s = item.shelf_type
    · rw [processItem_same now st item b s hm hsb]
      refine ⟨fun sh => ?_, by rw [msGet_del, if_neg hkg]⟩
      rw [Library.get_set]
      by_cases hsh : sh = s
      · subst hsh
        rw [if_pos rfl]
        exact idRecords_map_update_other _ _ _ _ rfl hkg
      · rw [if_neg hsh]
    · rw [processItem_conflict now st item b s hm hsb]
      refine ⟨fun sh => ?_, by rw [msGet_del, if_neg hkg]⟩
      simp only [Library.get_set]
      by_cases hsh : sh = item.shelf_type
      · subst hsh
        have hss : ¬ item.shelf_type = s := fun hh => hsb hh.symm
        rw [if_pos rfl, idRecords_append, if_neg hss,
          idRecords_single_remoteBook_ne now (some (b, s)) item k hk, List.append_nil]
      · rw [if_neg hsh]
        by_cases hsh2 : sh = s
        · subst hsh2
          rw [if_pos rfl]
          exact idRecords_filter_keep _ _ _ hkg
        · rw [if_neg hsh2]

theorem foldl_processItem_preserve (now : String) (items : List RemoteItem) (k : String)
    (hk : ∀ j ∈ items, j.google_books_id ≠ k) (st : Library × BookMap) :
    (∀ sh, idRecords ((items.foldl (processItem now) st).1.get sh) k
        = idRecords (st.1.get sh) k)
      ∧ msGet (items.foldl (processItem now) st).2 k = msGet st.2 k := by
  induction items generalizing st with
  | nil => exact ⟨fun _ => rfl, rfl⟩
  | cons j rest ih =>
    have h1 := processItem_preserve now st j k (hk j (by simp))
    have h2 := ih (fun i hi => hk i (by simp [hi])) (processItem now st j)
    exact ⟨fun sh => (h2.1 sh).trans (h1.1 sh), h2.2.trans h1.2⟩

theorem processItem_mem (now : String) (st : Library × BookMap) (item : RemoteItem)
    (b : Book) (sh : Shelf) (hk : item.google_books_id ≠ b.id) (hb : b ∈ st.1.get sh) :
    b ∈ (processItem now st item).1.get sh := by
  have hbk : b.id ≠ item.google_books_id := fun hh => hk hh.symm
  cases hm : msGet st.2 item.google_books_id with
  | none =>
    rw [processItem_new now st item hm, Library.get_set]
    by_cases hsh : sh = item.shelf_type
    · subst hsh
      exact if_pos rfl ▸ List.mem_append_left _ hb
    · rwa [if_neg hsh]
  | some bs =>
    obtain ⟨b0, s⟩ := bs
    by_cases hsb : s = item.shelf_type
    · rw [processItem_same now st item b0 s hm hsb, Library.get_set]
      by_cases hsh : sh = s
      · rw [if_pos hsh]
        rw [hsh] at hb
        have hfb : (fun x => if x.id = item.google_books_id then
            remoteBook now (some (b0, s)) item else x) b = b := if_neg hbk
        exact hfb ▸ List.mem_map_of_mem _ hb
      · rwa [if_neg hsh]
    · rw [processItem_conflict now st item b0 s hm hsb]
      simp only [Library.get_set]
      by_cases hsh : sh = item.shelf_type
      · subst hsh
        have hss : ¬ item.shelf_type = s := fun hh => hsb hh.symm
        rw [if_pos rfl, if_neg hss]
        exact List.mem_append_left _ hb
      · rw [if_neg hsh]
        by_cases hsh2 : sh = s
        · subst hsh2
          rw [if_pos rfl]
          exact mem_filter_ne _ hb hbk
        · rwa [if_neg hsh2]

theorem foldl_processItem_mem (now : String) (items : List RemoteItem) (b : Book)
    (hk : ∀ j ∈ items, j.google_books_id ≠ b.id) (st : Library × BookMap) (sh : Shelf)
    (hb : b ∈ st.1.get sh) :
    b ∈ (items.foldl (processItem now) st).1.get sh := by
  induction items generalizing st with
  | nil => exact hb
  | cons j rest ih =>
    exact ih (fun i hi => hk i (by simp [hi])) (processItem now st j)
      (processItem_mem now st j b sh (hk j (by simp)) hb)

end LibraryManager

open LibraryManager in
/-- C1: pull-merge shelf routing on conflict.  When the local collection
holds exactly one record with the snapshot item's externalId, on a shelf
different from the item's shelf, and no other snapshot item carries that
externalId, then after the merge exactly one record with that externalId
exists, it sits on the remote shelf only (the old shelf no longer holds
it), and it carries the remote serverId. -/
theorem c1_shelf_routing
    (now : String) (lib : Library) (b : Book) (s : Shelf)
    (it : RemoteItem) (pre post : List RemoteItem)
    (hb : ∀ sh, idRecords (lib.get sh) it.google_books_id = if sh = s then [b] else [])
    (hs : it.shelf_type ≠ s)
    (hpre : ∀ j ∈ pre, j.google_books_id ≠ it.google_books_id)
    (hpost : ∀ j ∈ post, j.google_books_id ≠ it.google_books_id) :
    ∃ rb : Book,
      (∀ sh, idRecords ((mergeRemoteIntoLocal now lib (pre ++ it :: post)).get sh)
          it.google_books_id = if sh = it.shelf_type then [rb] else [])
      ∧ rb.db_id = some it.id ∧ rb.id = it.google_books_id := by
  unfold mergeRemoteIntoLocal
  rw [List.foldl_append, List.foldl_cons]
  have hfold := foldl_processItem_preserve now pre it.google_books_id hpre (lib, buildMap lib)
  have hfold1 : ∀ sh,
      idRecords ((pre.foldl (processItem now) (lib, buildMap lib)).1.get sh)
        it.google_books_id = idRecords (lib.get sh) it.google_books_id := hfold.1
  have hfold2 : msGet (pre.foldl (processItem now) (lib, buildMap lib)).2 it.google_books_id
      = msGet (buildMap lib) it.google_books_id := hfold.2
  have hmap : msGet (pre.foldl (processItem now) (lib, buildMap lib)).2 it.google_books_id
      = some (b, s) := hfold2.trans (buildMap_lookup_unique lib _ b s hb)
  have hsne : s ≠ it.shelf_type := fun hh => hs hh.symm
  rw [processItem_conflict now _ it b s hmap hsne]
  have hpost' := foldl_processItem_preserve now post it.google_books_id hpost
    (((pre.foldl (processItem now) (lib, buildMap lib)).1.set s
        (((pre.foldl (processItem now) (lib, buildMap lib)).1.get s).filter
          (fun x => x.id ≠ it.google_books_id))).set it.shelf_type
        ((((pre.foldl (processItem now) (lib, buildMap lib)).1.set s
            (((pre.foldl (processItem now) (lib, buildMap lib)).1.get s).filter
              (fun x => x.id ≠ it.google_books_id))).get it.shelf_type)
          ++ [remoteBook now (some (b, s)) it]),
      msDel (pre.foldl (processItem now) (lib, buildMap lib)).2 it.google_books_id)
  refine ⟨remoteBook now (some (b, s)) it, fun sh => ?_, rfl, rfl⟩
  have hstep := hpost'.1 sh
  rw [hstep]
  simp only [Library.get_set]
  by_cases hsh : sh = it.shelf_type
  · subst hsh
    have hss : ¬ it.shelf_type = s := hs
    rw [if_pos rfl, if_pos rfl, idRecords_append, if_neg hss, hfold1 _, hb _, if_neg hss]
    simp [idRecords, remoteBook]
  · rw [if_neg hsh]
    by_cases hsh2 : sh = s
    · subst hsh2
      rw [if_pos rfl, if_neg hsh, idRecords_filter_self]
    · rw [if_neg hsh2, if_neg hsh, hfold1 sh, hb sh, if_neg hsh2]

/-- C1 witness: end-to-end scenario C.  Local b1 on want with no
serverId, remote b1 under finished with serverId 7: after the merge
exactly one b1 record exists, under finished, with db_id 7. -/
theorem c1_witness :
    ∃ rb : Book,
      (∀ sh, idRecords ((LibraryManager.mergeRemoteIntoLocal "now" libWantB1
          ([] ++ itemFinished7 :: [])).get sh) itemFinished7.google_books_id
        = if sh = itemFinished7.shelf_type then [rb] else [])
      ∧ rb.db_id = some itemFinished7.id ∧ rb.id = itemFinished7.google_books_id :=
  c1_shelf_routing "now" libWantB1 bookB1 .want itemFinished7 [] []
    (by intro sh; cases sh <;> decide) (by decide)
    (by intro j hj; cases hj) (by intro j hj; cases hj)

open LibraryManager in
/-- C2: pull-merge progress preservation.  When the local collection
holds exactly one record with the snapshot item's externalId, on the same
shelf as the item, the local record has a numeric progress value, and no
other snapshot item carries that externalId, then after the merge exactly
one record with that externalId exists, still on that shelf, and it keeps
the local progress value (the backend snapshot supplies no progress
field at all). -/
theorem c2_progress_preservation
    (now : String) (lib : Library) (b : Book) (s : Shelf) (n : Int)
    (it : RemoteItem) (pre post : List RemoteItem)
    (hb : ∀ sh, idRecords (lib.get sh) it.google_books_id = if sh = s then [b] else [])
    (hprog : b.progress = some n)
    (hs : it.shelf_type = s)
    (hpre : ∀ j ∈ pre, j.google_books_id ≠ it.google_books_id)
    (hpost : ∀ j ∈ post, j.google_books_id ≠ it.google_books_id) :
    ∃ rb : Book,
      (∀ sh, idRecords ((mergeRemoteIntoLocal now lib (pre ++ it :: post)).get sh)
          it.google_books_id = if sh = s then [rb] else [])
      ∧ rb.progress = some n := by
  unfold mergeRemoteIntoLocal
  rw [List.foldl_append, List.foldl_cons]
  have hfold := foldl_processItem_preserve now pre it.google_books_id hpre (lib, buildMap lib)
  have hfold1 : ∀ sh,
      idRecords ((pre.foldl (processItem now) (lib, buildMap lib)).1.get sh)
        it.google_books_id = idRecords (lib.get sh) it.google_books_id := hfold.1
  have hfold2 : msGet (pre.foldl (processItem now) (lib, buildMap lib)).2 it.google_books_id
      = msGet (buildMap lib) it.google_books_id := hfold.2
  have hmap : msGet (pre.foldl (processItem now) (lib, buildMap lib)).2 it.google_books_id
      = some (b, s) := hfold2.trans (buildMap_lookup_unique lib _ b s hb)
  rw [processItem_same now _ it b s hmap hs.symm]
  have hpost' := foldl_processItem_preserve now post it.google_books_id hpost
    ((pre.foldl (processItem now) (lib, buildMap lib)).1.set s
        (((pre.foldl (processItem now) (lib, buildMap lib)).1.get s).map
          (fun x => if x.id = it.google_books_id then remoteBook now (some (b, s)) it else x)),
      msDel (pre.foldl (processItem now) (lib, buildMap lib)).2 it.google_books_id)
  refine ⟨remoteBook now (some (b, s)) it, fun sh => ?_, by simp [remoteBook, hprog]⟩
  have hstep := hpost'.1 sh
  rw [hstep]
  simp only [Library.get_set]
  by_cases hsh : sh = s
  · subst hsh
    rw [if_pos rfl, if_pos rfl,
      idRecords_map_update _ it.google_books_id it.google_books_id _ rfl, hfold1 _, hb _,
      if_pos rfl]
    have hbid : b.id = it.google_books_id :=
      idRecords_id_eq b (by rw [hb sh, if_pos rfl]; exact List.mem_singleton.mpr rfl)
    simp [hbid]
  · rw [if_neg hsh, if_neg hsh, hfold1 sh, hb sh, if_neg hsh]

/-- C2 witness: local b1 on current with progress 40, remote b1 on
current with serverId 9 and fresh metadata: the merged b1 record keeps
progress 40. -/
theorem c2_witness :
    ∃ rb : Book,
      (∀ sh, idRecords ((LibraryManager.mergeRemoteIntoLocal "now" libCurrentB1P
          ([] ++ itemCurrent9 :: [])).get sh) itemCurrent9.google_books_id
        = if sh = Shelf.current then [rb] else [])
      ∧ rb.progress = some 40 :=
  c2_progress_preservation "now" libCurrentB1P bookB1Progress .current 40 itemCurrent9 [] []
    (by intro sh; cases sh <;> decide) (by decide) (by decide)
    (by intro j hj; cases hj) (by intro j hj; cases hj)

open LibraryManager in
/-- C3: pull-merge no loss on missing.  Every local record whose
externalId is matched by no snapshot item is still present, as the same
unchanged value, on its original shelf after the merge, whether or not it
carries a serverId. -/
theorem c3_no_loss_on_missing
    (now : String) (lib : Library) (b : Book) (s : Shelf) (items : List RemoteItem)
    (hmem : b ∈ lib.get s)
    (hno : ∀ it ∈ items, it.google_books_id ≠ b.id) :
    b ∈ (mergeRemoteIntoLocal now lib items).get s :=
  foldl_processItem_mem now items b hno (lib, buildMap lib) s hmem

/-- C3 witness: b2 carries serverId 5 and is absent from a snapshot that
only mentions b1; b2 survives the merge unchanged on the finished
shelf. -/
theorem c3_witness :
    bookB2 ∈ (LibraryManager.mergeRemoteIntoLocal "now" libFinishedB2 [itemWant3]).get
      .finished :=
  c3_no_loss_on_missing "now" libFinishedB2 bookB2 .finished [itemWant3]
    (by decide) (by intro it hit; simp at hit; subst hit; decide)

open LibraryManager in
/-- C4: pull-merge remote-only insert.  When no local record carries the
snapshot item's externalId and no other snapshot item carries it either,
the merge inserts exactly one record with that externalId, under the
item's shelf, carrying the item's serverId. -/
theorem c4_remote_only_insert
    (now : String) (lib : Library)
    (it : RemoteItem) (pre post : List RemoteItem)
    (hb : ∀ sh, idRecords (lib.get sh) it.google_books_id = [])
    (hpre : ∀ j ∈ pre, j.google_books_id ≠ it.google_books_id)
    (hpost : ∀ j ∈ post, j.google_books_id ≠ it.google_books_id) :
    ∃ rb : Book,
      (∀ sh, idRecords ((mergeRemoteIntoLocal now lib (pre ++ it :: post)).get sh)
          it.google_books_id = if sh = it.shelf_type then [rb] else [])
      ∧ rb.db_id = some it.id ∧ rb.id = it.google_books_id := by
  unfold mergeRemoteIntoLocal
  rw [List.foldl_append, List.foldl_cons]
  have hfold := foldl_processItem_preserve now pre it.google_books_id hpre (lib, buildMap lib)
  have hfold1 : ∀ sh,
      idRecords ((pre.foldl (processItem now) (lib, buildMap lib)).1.get sh)
        it.google_books_id = idRecords (lib.get sh) it.google_books_id := hfold.1
  have hfold2 : msGet (pre.foldl (processItem now) (lib, buildMap lib)).2 it.google_books_id
      = msGet (buildMap lib) it.google_books_id := hfold.2
  have hmap : msGet (pre.foldl (processItem now) (lib, buildMap lib)).2 it.google_books_id
      = none := hfold2.trans (buildMap_lookup_none lib _ hb)
  rw [processItem_new now _ it hmap]
  have hpost' := foldl_processItem_preserve now post it.google_books_id hpost
    ((pre.foldl (processItem now) (lib, buildMap lib)).1.set it.shelf_type
        (((pre.foldl (processItem now) (lib, buildMap lib)).1.get it.shelf_type)
          ++ [remoteBook now none it]),
      (pre.foldl (processItem now) (lib, buildMap lib)).2)
  refine ⟨remoteBook now none it, fun sh => ?_, rfl, rfl⟩
  have hstep := hpost'.1 sh
  rw [hstep]
  simp only [Library.get_set]
  by_cases hsh : sh = it.shelf_type
  · subst hsh
    rw [if_pos rfl, if_pos rfl, idRecords_append, hfold1 _, hb _]
    simp [idRecords, remoteBook]
  · rw [if_neg hsh, if_neg hsh, hfold1 sh, hb sh]

/-- C4 witness: end-to-end scenario A.  Empty local store, snapshot with
one item b1 under want: after the merge exactly one record exists, under
want, and zero records sit on the other two shelves. -/
theorem c4_witness :
    ∃ rb : Book,
      (∀ sh, idRecords ((LibraryManager.mergeRemoteIntoLocal "now" emptyLibrary
          ([] ++ itemWant3 :: [])).get sh) itemWant3.google_books_id
        = if sh = itemWant3.shelf_type then [rb] else [])
      ∧ rb.db_id = some itemWant3.id ∧ rb.id = itemWant3.google_books_id :=
  c4_remote_only_insert "now" emptyLibrary itemWant3 [] []
    (by intro sh; cases sh <;> decide)
    (by intro j hj; cases hj) (by intro j hj; cases hj)

theorem countId_append (l l' : List Book) (k : String) :
    countId (l ++ l') k = countId l k + countId l' k := by
  simp [countId, idRecords_append]

theorem countId_single (b : Book) (k : String) :
    countId [b] k = if b.id = k then 1 else 0 := by
  by_cases h : b.id = k <;> simp [countId, idRecords, h]

theorem countId_filter_other (l : List Book) (g k : String) (hkg : k ≠ g) :
    countId (l.filter (fun x => x.id ≠ g)) k = countId l k := by
  simp only [countId]
  rw [idRecords_filter_keep l k g hkg]

theorem Library.get_set_same (lib : Library) (s : Shelf) (l : List Book) :
    (lib.set s l).get s = l := by
  cases s <;> rfl

theorem Library.get_set_other (lib : Library) (s s' : Shelf) (l : List Book) (h : s' ≠ s) :
    (lib.set s l).get s' = lib.get s' := by
  cases s <;> cases s' <;> first
    | exact absurd rfl h
    | rfl

theorem countId_eq_zero_iff (l : List Book) (k : String) :
    countId l k = 0 ↔ idRecords l k = [] := by
  simp [countId, List.length_eq_zero]

theorem totalCount_eq_zero (lib : Library) (k : String)
    (h : ∀ sh, idRecords (lib.get sh) k = []) : totalCount lib k = 0 := by
  have hc : idRecords lib.current k = [] := h .current
  have hw : idRecords lib.want k = [] := h .want
  have hf : idRecords lib.finished k = [] := h .finished
  simp [totalCount, countId, hc, hw, hf]

theorem totalCount_set_append_single (lib : Library) (shelf : Shelf) (b : Book) (k : String) :
    totalCount (lib.set shelf ((lib.get shelf) ++ [b])) k
      = totalCount lib k + (if b.id = k then 1 else 0) := by
  by_cases hb : b.id = k <;>
    cases shelf <;>
      simp [totalCount_eq_get, Library.get_set, countId_append, countId_single, hb] <;>
      omega

theorem totalCount_set_filter_other (lib : Library) (s : Shelf) (g k : String) (hkg : k ≠ g) :
    totalCount (lib.set s ((lib.get s).filter (fun x => x.id ≠ g))) k = totalCount lib k := by
  rw [totalCount_eq_get, totalCount_eq_get]
  cases s with
  | current =>
    rw [Library.get_set_same, Library.get_set_other _ _ _ _ (by decide),
      Library.get_set_other _ _ _ _ (by decide), countId_filter_other _ _ _ hkg]
  | want =>
    rw [Library.get_set_same, Library.get_set_other _ _ _ _ (by decide),
      Library.get_set_other _ _ _ _ (by decide), countId_filter_other _ _ _ hkg]
  | finished =>
    rw [Library.get_set_same, Library.get_set_other _ _ _ _ (by decide),
      Library.get_set_other _ _ _ _ (by decide), countId_filter_other _ _ _ hkg]

theorem shelfUnique_of_uniqueIds (lib : Library) (hu : UniqueIds lib) : ShelfUnique lib := by
  intro k
  have h := hu k
  unfold totalCount at h
  unfold shelfCount
  split_ifs <;> omega

theorem unique_counts (lib : Library) (id : String) (hu : UniqueIds lib) (s : Shelf)
    (hs : idRecords (lib.get s) id ≠ []) :
    ∀ sh, sh ≠ s → idRecords (lib.get sh) id = [] := by
  intro sh hsh
  have h1 := hu id
  rw [totalCount_eq_get] at h1
  have hlen : 1 ≤ countId (lib.get s) id := by
    cases hh : idRecords (lib.get s) id with
    | nil => exact absurd hh hs
    | cons x tl => simp [countId, hh]
  have h0 : countId (lib.get sh) id = 0 := by
    cases s <;> cases sh <;> first
      | exact absurd rfl hsh
      | omega
  exact (countId_eq_zero_iff _ _).mp h0

namespace LibraryManager

theorem findBook_eq_false_idRecords (lib : Library) (id : String)
    (h : findBook lib id = false) : ∀ sh, idRecords (lib.get sh) id = [] := by
  unfold findBook at h
  simp only [Bool.or_eq_false_iff] at h
  intro sh
  cases sh with
  | current => exact idRecords_eq_nil_of_any_false h.1.1
  | want => exact idRecords_eq_nil_of_any_false h.1.2
  | finished => exact idRecords_eq_nil_of_any_false h.2

theorem findBookShelf_findBook (lib : Library) (id : String) (s : Shelf)
    (h : findBookShelf lib id = some s) : findBook lib id = true := by
  unfold findBookShelf at h
  by_cases h1 : lib.current.any (fun b => b.id = id) = true
  · simp [findBook, h1]
  · by_cases h2 : lib.want.any (fun b => b.id = id) = true
    · simp [findBook, h2]
    · by_cases h3 : lib.finished.any (fun b => b.id = id) = true
      · simp [findBook, h3]
      · rw [if_neg h1, if_neg h2, if_neg h3] at h
        exact Option.noConfusion h

theorem findBookInShelf_none_findBook (lib : Library) (id : String)
    (h : findBookInShelf lib id = none) : findBook lib id = false := by
  unfold findBookInShelf at h
  rcases h1 : lib.current.find? (fun b => b.id = id) with _ | b1 <;> rw [h1] at h
  case some => exact Option.noConfusion h
  rcases h2 : lib.want.find? (fun b => b.id = id) with _ | b2 <;> rw [h2] at h
  case some => exact Option.noConfusion h
  rcases h3 : lib.finished.find? (fun b => b.id = id) with _ | b3 <;> rw [h3] at h
  case some => exact Option.noConfusion h
  have g1 := List.find?_eq_none.mp h1
  have g2 := List.find?_eq_none.mp h2
  have g3 := List.find?_eq_none.mp h3
  unfold findBook
  simp only [Bool.or_eq_false_iff]
  exact ⟨⟨List.any_eq_false.mpr g1, List.any_eq_false.mpr g2⟩, List.any_eq_false.mpr g3⟩

theorem findBookInShelf_find? (lib : Library) (id : String) (s : Shelf) (b : Book)
    (h : findBookInShelf lib id = some (s, b)) :
    (lib.get s).find? (fun x => x.id = id) = some b := by
  unfold findBookInShelf at h
  rcases h1 : lib.current.find? (fun x => x.id = id) with _ | b1 <;> rw [h1] at h
  case some =>
    injection h with h4
    injection h4 with hs hb
    subst hs
    rw [← hb]
    exact h1
  rcases h2 : lib.want.find? (fun x => x.id = id) with _ | b2 <;> rw [h2] at h
  case some =>
    injection h with h4
    injection h4 with hs hb
    subst hs
    rw [← hb]
    exact h2
  rcases h3 : lib.finished.find? (fun x => x.id = id) with _ | b3 <;> rw [h3] at h
  case some =>
    injection h with h4
    injection h4 with hs hb
    subst hs
    rw [← hb]
    exact h3
  exact Option.noConfusion h

theorem findBookInShelf_of_idRecords (lib : Library) (id : String) (s : Shelf) (b : Book)
    (tl : List Book) (hs : idRecords (lib.get s) id = b :: tl)
    (hother : ∀ sh, sh ≠ s → idRecords (lib.get sh) id = []) :
    findBookInShelf lib id = some (s, b) := by
  unfold findBookInShelf
  cases s with
  | current =>
    have hc : lib.current.find? (fun x => x.id = id) = some b :=
      find?_eq_some_of_idRecords_cons hs
    rw [hc]
  | want =>
    have hc : lib.current.find? (fun x => x.id = id) = none :=
      find?_eq_none_of_idRecords_nil (hother .current (by decide))
    have hw : lib.want.find? (fun x => x.id = id) = some b :=
      find?_eq_some_of_idRecords_cons hs
    rw [hc, hw]
  | finished =>
    have hc : lib.current.find? (fun x => x.id = id) = none :=
      find?_eq_none_of_idRecords_nil (hother .current (by decide))
    have hw : lib.want.find? (fun x => x.id = id) = none :=
      find?_eq_none_of_idRecords_nil (hother .want (by decide))
    have hf : lib.finished.find? (fun x => x.id = id) = some b :=
      find?_eq_some_of_idRecords_cons hs
    rw [hc, hw, hf]

theorem removeBookLocal_eq_some (lib : Library) (id : String) (s : Shelf) (b : Book)
    (hf : findBookInShelf lib id = some (s, b)) :
    removeBookLocal lib id
      = (true, lib.set s ((lib.get s).filter (fun x => x.id ≠ id))) := by
  unfold removeBookLocal
  rw [hf]

theorem removeBookLocal_eq_none (lib : Library) (id : String)
    (hf : findBookInShelf lib id = none) :
    removeBookLocal lib id = (false, lib) := by
  unfold removeBookLocal
  rw [hf]

theorem removeBookLocal_found_clears (lib : Library) (id : String) (hu : UniqueIds lib)
    (s : Shelf) (b : Book) (hf : findBookInShelf lib id = some (s, b)) :
    ∀ sh, idRecords (((removeBookLocal lib id).2).get sh) id = [] := by
  have heq := removeBookLocal_eq_some lib id s b hf
  have hfind := findBookInShelf_find? lib id s b hf
  have hmem := List.mem_of_find?_eq_some hfind
  have hid : b.id = id := by simpa using List.find?_some hfind
  have hne : idRecords (lib.get s) id ≠ [] := by
    intro hnil
    have hm := mem_idRecords hmem hid
    rw [hnil] at hm
    simp at hm
  intro sh
  rw [heq]
  simp only [Library.get_set]
  by_cases hsh : sh = s
  · rw [if_pos hsh]
    exact idRecords_filter_self _ _
  · rw [if_neg hsh]
    exact unique_counts lib id hu s hne sh hsh

theorem addBook_notfound_eq (now : String) (lib : Library) (book : Book) (shelf : Shelf)
    (hfb : findBook lib book.id = false) :
    addBook now lib book shelf
      = lib.set shelf ((lib.get shelf) ++ [enrich now book shelf]) := by
  unfold addBook
  rw [hfb]
  simp

theorem addBook_same_shelf (now : String) (lib : Library) (book : Book) (shelf : Shelf)
    (hfs : findBookShelf lib book.id = some shelf) :
    addBook now lib book shelf = lib := by
  have hfb := findBookShelf_findBook lib book.id shelf hfs
  unfold addBook
  rw [hfb, hfs]
  simp

theorem addBook_moved_eq (now : String) (lib : Library) (book : Book) (shelf es : Shelf)
    (hfs : findBookShelf lib book.id = some es) (hes : ¬ es = shelf) :
    addBook now lib book shelf
      = ((removeBookLocal lib book.id).2).set shelf
          ((((removeBookLocal lib book.id).2).get shelf) ++ [enrich now book shelf]) := by
  have hfb := findBookShelf_findBook lib book.id es hfs
  unfold addBook
  rw [hfb, hfs]
  simp [hes]

end LibraryManager

namespace BookshelfRenderer3D

theorem moveBook_eq_same (lib : Library) (bookId : String) (f : Shelf) :
    moveBook lib bookId f f = ⟨lib, none⟩ := by
  unfold moveBook
  rw [if_pos rfl]

theorem moveBook_eq_notfound (lib : Library) (bookId : String) (f t : Shelf) (hft : ¬ f = t)
    (hx : extractFirst (fun x => x.id = bookId) (lib.get f) = none) :
    moveBook lib bookId f t = ⟨lib, some "Book not found in source shelf"⟩ := by
  unfold moveBook
  rw [if_neg hft, hx]

theorem moveBook_eq_found (lib : Library) (bookId : String) (f t : Shelf) (b : Book)
    (rest : List Book) (hft : ¬ f = t)
    (hx : extractFirst (fun x => x.id = bookId) (lib.get f) = some (b, rest)) :
    moveBook lib bookId f t
      = ⟨(lib.set f rest).set t (((lib.set f rest).get t) ++ [b]), none⟩ := by
  unfold moveBook
  rw [if_neg hft, hx]

theorem extractFirst_none_of_idRecords_nil {l : List Book} {k : String}
    (h : idRecords l k = []) : extractFirst (fun x => x.id = k) l = none := by
  induction l with
  | nil => rfl
  | cons b rest ih =>
    by_cases hb : b.id = k
    · simp [idRecords, hb] at h
    · simp only [idRecords, if_neg hb] at h
      simp [extractFirst, hb, ih h]

theorem extractFirst_count {p : Book → Bool} {l rest : List Book} {b : Book}
    (h : extractFirst p l = some (b, rest)) (k : String) :
    countId l k = countId rest k + (if b.id = k then 1 else 0) := by
  induction l generalizing rest with
  | nil => exact Option.noConfusion h
  | cons x tl ih =>
    unfold extractFirst at h
    by_cases hp : p x = true
    · rw [if_pos hp] at h
      have h4 := Option.some.inj h
      injection h4 with hxb htl
      subst hxb
      subst htl
      by_cases hx : x.id = k <;> simp [countId, idRecords, hx]
    · rw [if_neg hp] at h
      rcases hmap : extractFirst p tl with _ | q <;> rw [hmap] at h
      · exact Option.noConfusion h
      · obtain ⟨b', rest'⟩ := q
        have h4 := Option.some.inj h
        injection h4 with hb hrest
        subst hb
        subst hrest
        have hc := ih hmap
        by_cases hx : x.id = k <;> simp [countId, idRecords, hx] <;>
          simp [countId] at hc <;> omega

theorem moveBook_totalCount (lib : Library) (bookId : String) (f t : Shelf) (k : String) :
    totalCount ((moveBook lib bookId f t).library) k = totalCount lib k := by
  by_cases hft : f = t
  · subst hft
    rw [moveBook_eq_same]
  · rcases hx : extractFirst (fun x => x.id = bookId) (lib.get f) with _ | q
    · rw [moveBook_eq_notfound lib bookId f t hft hx]
    · obtain ⟨b, rest⟩ := q
      rw [moveBook_eq_found lib bookId f t b rest hft hx]
      have hc := extractFirst_count hx k
      by_cases hb : b.id = k <;>
        simp only [hb, if_true, if_false] at hc <;>
        cases f <;> cases t <;> first
          | exact absurd rfl hft
          | (simp [totalCount_eq_get, Library.get_set, countId_append, countId_single, hb]
             omega)

end BookshelfRenderer3D

namespace LibraryManager

theorem findBookShelf_none_findBook (lib : Library) (id : String)
    (h : findBookShelf lib id = none) : findBook lib id = false := by
  unfold findBookShelf at h
  by_cases h1 : lib.current.any (fun b => b.id = id) = true
  · rw [if_pos h1] at h
    exact Option.noConfusion h
  · by_cases h2 : lib.want.any (fun b => b.id = id) = true
    · rw [if_neg h1, if_pos h2] at h
      exact Option.noConfusion h
    · by_cases h3 : lib.finished.any (fun b => b.id = id) = true
      · rw [if_neg h1, if_neg h2, if_pos h3] at h
        exact Option.noConfusion h
      · have g1 := Bool.eq_false_iff.mpr h1
        have g2 := Bool.eq_false_iff.mpr h2
        have g3 := Bool.eq_false_iff.mpr h3
        unfold findBook
        rw [g1, g2, g3]
        rfl

theorem enrich_id (now : String) (book : Book) (shelf : Shelf) :
    (enrich now book shelf).id = book.id := rfl

theorem addBook_uniqueIds (now : String) (lib : Library) (book : Book) (shelf : Shelf)
    (hu : UniqueIds lib) : UniqueIds (addBook now lib book shelf) := by
  cases hfb : findBook lib book.id with
  | false =>
    rw [addBook_notfound_eq now lib book shelf hfb]
    intro k
    rw [totalCount_set_append_single, enrich_id]
    have hz := findBook_eq_false_idRecords lib book.id hfb
    by_cases hk : book.id = k
    · subst hk
      rw [if_pos rfl]
      have h0 : totalCount lib book.id = 0 := totalCount_eq_zero lib book.id hz
      omega
    · rw [if_neg hk]
      have hle := hu k
      omega
  | true =>
    rcases hfs : findBookShelf lib book.id with _ | es
    · rw [findBookShelf_none_findBook lib book.id hfs] at hfb
      exact Bool.noConfusion hfb
    · by_cases hes : es = shelf
      · rw [addBook_same_shelf now lib book shelf (hes ▸ hfs)]
        exact hu
      · rcases hf : findBookInShelf lib book.id with _ | q
        · rw [findBookInShelf_none_findBook lib book.id hf] at hfb
          exact Bool.noConfusion hfb
        · obtain ⟨s0, b0⟩ := q
          rw [addBook_moved_eq now lib book shelf es hfs hes]
          intro k
          rw [totalCount_set_append_single, enrich_id]
          have hclear := removeBookLocal_found_clears lib book.id hu s0 b0 hf
          have heq2 : (removeBookLocal lib book.id).2
              = lib.set s0 ((lib.get s0).filter (fun x => x.id ≠ book.id)) := by
            rw [removeBookLocal_eq_some lib book.id s0 b0 hf]
          by_cases hk : book.id = k
          · subst hk
            rw [if_pos rfl]
            have h0 : totalCount ((removeBookLocal lib book.id).2) book.id = 0 :=
              totalCount_eq_zero _ _ hclear
            omega
          · rw [if_neg hk, heq2, totalCount_set_filter_other lib s0 book.id k
              (fun hh => hk hh.symm)]
            have hle := hu k
            omega

end LibraryManager

theorem moveBook_uniqueIds (lib : Library) (bookId : String) (f t : Shelf)
    (hu : UniqueIds lib) :
    UniqueIds ((BookshelfRenderer3D.moveBook lib bookId f t).library) := by
  intro k
  rw [BookshelfRenderer3D.moveBook_totalCount]
  exact hu k

theorem applyOp_uniqueIds (lib : Library) (op : Op) (hu : UniqueIds lib) :
    UniqueIds (applyOp lib op) := by
  cases op with
  | add now b s => exact LibraryManager.addBook_uniqueIds now lib b s hu
  | move id f t => exact moveBook_uniqueIds lib id f t hu

/-- C5 counterexample: local b1 sits on want; calling addBook for b1 with
target finished does not fail — it removes b1 from want and pushes a
fresh record for it onto finished, that is, it implicitly moves the
record, contradicting `fails with DuplicateInOtherShelfError ... without
moving the record`. -/
theorem c5_counterexample :
    LibraryManager.findBookShelf libWantB1 "b1" = some .want
    ∧ (LibraryManager.addBook "n" libWantB1 bookB1 .finished).want = []
    ∧ (LibraryManager.addBook "n" libWantB1 bookB1 .finished).finished
        = [LibraryManager.enrich "n" bookB1 .finished] := by decide

open LibraryManager in
/-- C5 (amended): addBook never raises on the local path.  When the
record's externalId already occupies the target shelf the call is a
no-op (the collection is returned unchanged); when it sits on a
different shelf the call implicitly moves it: the record disappears from
every other shelf and the target shelf alone holds one freshly enriched
record with that externalId. -/
theorem c5_add_contract (now : String) (lib : Library) (book : Book) (shelf : Shelf)
    (hu : UniqueIds lib) :
    (findBookShelf lib book.id = some shelf → addBook now lib book shelf = lib)
    ∧ (∀ es, findBookShelf lib book.id = some es → es ≠ shelf →
        ∀ sh, idRecords ((addBook now lib book shelf).get sh) book.id
          = if sh = shelf then [enrich now book shelf] else []) := by
  constructor
  · exact fun hfs => addBook_same_shelf now lib book shelf hfs
  · intro es hfs hes sh
    have hfb := findBookShelf_findBook lib book.id es hfs
    rcases hf : findBookInShelf lib book.id with _ | q
    · rw [findBookInShelf_none_findBook lib book.id hf] at hfb
      exact Bool.noConfusion hfb
    · obtain ⟨s0, b0⟩ := q
      rw [addBook_moved_eq now lib book shelf es hfs hes]
      have hclear := removeBookLocal_found_clears lib book.id hu s0 b0 hf
      by_cases hsh : sh = shelf
      · subst hsh
        rw [Library.get_set_same, idRecords_append, hclear sh, if_pos rfl]
        simp [idRecords, enrich]
      · rw [Library.get_set_other _ _ _ _ hsh, hclear sh, if_neg hsh]

/-- C5 witness: concrete instance of the amended add contract with b1 on
the want shelf and target shelf finished. -/
theorem c5_witness :
    (LibraryManager.findBookShelf libWantB1 bookB1.id = some .finished →
      LibraryManager.addBook "n" libWantB1 bookB1 .finished = libWantB1)
    ∧ (∀ es, LibraryManager.findBookShelf libWantB1 bookB1.id = some es →
        es ≠ .finished →
        ∀ sh, idRecords ((LibraryManager.addBook "n" libWantB1 bookB1 .finished).get sh)
            bookB1.id
          = if sh = Shelf.finished then [LibraryManager.enrich "n" bookB1 .finished]
            else []) :=
  c5_add_contract "n" libWantB1 bookB1 .finished
    (by
      intro k
      by_cases hk : bookB1.id = k <;>
        simp [totalCount, countId, idRecords, libWantB1, hk])

/-- C6 counterexample: the collection holding the record b1 twice on the
want shelf satisfies the stated precondition — b1 appears on at most one
shelf — yet after the single operation move b1 from want to finished the
id b1 appears on two shelves. -/
theorem c6_counterexample :
    ShelfUnique libDupWant
    ∧ ¬ ShelfUnique (applyOp libDupWant (Op.move "b1" .want .finished)) := by
  constructor
  · intro k
    have h1 : countId libDupWant.current k = 0 := rfl
    have h3 : countId libDupWant.finished k = 0 := rfl
    unfold shelfCount
    rw [h1, h3]
    simp
    split_ifs <;> omega
  · intro h
    exact absurd (h "b1") (by decide)

/-- C6 (amended): starting from a collection in which each externalId
appears at most once across the whole collection (so in particular at
most once within a shelf), every sequence of addBook and moveBook
operations keeps that property, and hence each externalId appears in at
most one of the three shelves after every operation (every prefix of a
sequence is itself a sequence). -/
theorem c6_uniqueness_invariant (lib : Library) (ops : List Op) (hu : UniqueIds lib) :
    UniqueIds (runOps lib ops) ∧ ShelfUnique (runOps lib ops) := by
  have huni : UniqueIds (runOps lib ops) := by
    induction ops generalizing lib with
    | nil => exact hu
    | cons op rest ih => exact ih (applyOp lib op) (applyOp_uniqueIds lib op hu)
  exact ⟨huni, shelfUnique_of_uniqueIds _ huni⟩

/-- C6 witness: from the empty collection, adding b1 to want and moving
it to finished keeps every externalId unique and on at most one shelf. -/
theorem c6_witness :
    UniqueIds (runOps emptyLibrary [Op.add "n" bookB1 .want, Op.move "b1" .want .finished])
    ∧ ShelfUnique (runOps emptyLibrary
        [Op.add "n" bookB1 .want, Op.move "b1" .want .finished]) :=
  c6_uniqueness_invariant emptyLibrary _
    (by
      intro k
      simp [totalCount, countId, emptyLibrary, idRecords])

/-- C7 counterexample: no record with id b2 sits on want, yet moveBook
returns normally — the library is handed back unchanged and the only
failure signal is the console log line; no NotFoundError reaches the
caller. -/
theorem c7_counterexample :
    BookshelfRenderer3D.moveBook libWantB1 "b2" .want .finished
      = ⟨libWantB1, some "Book not found in source shelf"⟩ := by decide

open BookshelfRenderer3D in
/-- C7 (amended): moveBook is a no-op returning the unchanged collection
when the two shelves coincide; when the id is absent from the source
shelf it likewise returns the unchanged collection, logging
`Book not found in source shelf` to the console instead of raising any
error to the caller. -/
theorem c7_move_contract (lib : Library) (bookId : String) (f t : Shelf) :
    (f = t → moveBook lib bookId f t = ⟨lib, none⟩)
    ∧ (¬ f = t → idRecords (lib.get f) bookId = [] →
        moveBook lib bookId f t = ⟨lib, some "Book not found in source shelf"⟩) := by
  constructor
  · intro h
    subst h
    exact moveBook_eq_same lib bookId f
  · intro hft hnil
    exact moveBook_eq_notfound lib bookId f t hft (extractFirst_none_of_idRecords_nil hnil)

/-- C7 witness: concrete same-shelf no-op and concrete not-found outcome
of moveBook. -/
theorem c7_witness :
    BookshelfRenderer3D.moveBook libWantB1 "b2" .want .want
      = ⟨libWantB1, none⟩
    ∧ BookshelfRenderer3D.moveBook libWantB1 "b2" .current .finished
      = ⟨libWantB1, some "Book not found in source shelf"⟩ :=
  ⟨(c7_move_contract libWantB1 "b2" .want .want).1 rfl,
    (c7_move_contract libWantB1 "b2" .current .finished).2 (by decide) (by decide)⟩

/-- C8 counterexample: storage holding invalid JSON makes the load throw
a SyntaxError out of the constructor instead of yielding the default
collection, and storage holding valid JSON of the wrong shape (here the
number 5, which is truthy) is returned as-is rather than replaced by the
default three-empty-list collection. -/
theorem c8_counterexample :
    loadLibrary .invalidJson = .error "SyntaxError"
    ∧ loadLibrary (.parsed (.num 5)) = .ok (.num 5)
    ∧ Json.num 5 ≠ defaultLibraryJson := by
  refine ⟨rfl, rfl, fun h => ?_⟩
  exact Json.noConfusion h

/-- C8 (amended): the load defaults only when the parse succeeds with a
falsy value.  Absent storage loads the default collection (getItem gives
null, which parses to the falsy JSON null); stored falsy JSON likewise
loads the default; but invalid JSON raises a SyntaxError out of the
unguarded JSON.parse, and truthy valid JSON of any shape is used as-is,
default-free, whether or not it has the expected shape. -/
theorem c8_load_fails_soft :
    loadLibrary .absent = .ok defaultLibraryJson
    ∧ loadLibrary .invalidJson = .error "SyntaxError"
    ∧ (∀ j : Json, j.truthy = true → loadLibrary (.parsed j) = .ok j)
    ∧ (∀ j : Json, j.truthy = false → loadLibrary (.parsed j) = .ok defaultLibraryJson) := by
  refine ⟨rfl, rfl, fun j hj => ?_, fun j hj => ?_⟩
  · simp [loadLibrary, parseStorage, Except.map, hj]
  · simp [loadLibrary, parseStorage, Except.map, hj]

/-- C8 witness: a truthy stored string loads as itself and stored JSON
null loads the default collection. -/
theorem c8_witness :
    loadLibrary (.parsed (.str "x")) = .ok (.str "x")
    ∧ loadLibrary (.parsed .null) = .ok defaultLibraryJson :=
  ⟨c8_load_fails_soft.2.2.1 (.str "x") rfl, c8_load_fails_soft.2.2.2 .null rfl⟩

open LibraryManager in
/-- C9: push-sync selection.  Over a collection in which no record
carries the backend id 0 (the backend never assigns 0; the source tests
JS truthiness of db_id), itemsToSync holds exactly the pairs of a record
and its shelf whose record carries no serverId, across all three
shelves; and the pull-merge of an empty snapshot leaves every collection
unchanged, so an unmatched local-only record survives the merge and is
reported for upload. -/
theorem c9_push_selection (lib : Library)
    (hw : ∀ sh, ∀ b ∈ lib.get sh, b.db_id ≠ some 0) :
    (∀ (b : Book) (s : Shelf),
      ((b, s) ∈ itemsToSync lib ↔ b ∈ lib.get s ∧ b.db_id = none))
    ∧ (∀ now, mergeRemoteIntoLocal now lib [] = lib) := by
  have key : ∀ (l : List Book) (b : Book), (∀ x ∈ l, x.db_id ≠ some 0) →
      (b ∈ l.filter (fun x => !truthyId x.db_id) ↔ b ∈ l ∧ b.db_id = none) := by
    intro l b hl
    rw [List.mem_filter]
    constructor
    · rintro ⟨hm, ht⟩
      refine ⟨hm, ?_⟩
      cases hd : b.db_id with
      | none => rfl
      | some n =>
        rw [hd] at ht
        simp [truthyId] at ht
        have hzero : b.db_id = some 0 := by rw [hd, ht]
        exact absurd hzero (hl b hm)
    · rintro ⟨hm, hd⟩
      exact ⟨hm, by simp [truthyId, hd]⟩
  constructor
  · intro b s
    unfold itemsToSync
    simp only [List.mem_append, List.mem_map]
    constructor
    · rintro ((⟨x, hx, hxe⟩ | ⟨x, hx, hxe⟩) | ⟨x, hx, hxe⟩) <;>
        · rw [Prod.mk.injEq] at hxe
          obtain ⟨rfl, rfl⟩ := hxe
          exact (key _ _ (hw _)).mp hx
    · rintro ⟨hm, hd⟩
      cases s with
      | current => exact Or.inl (Or.inl ⟨b, (key lib.current b (hw .current)).mpr ⟨hm, hd⟩, rfl⟩)
      | want => exact Or.inl (Or.inr ⟨b, (key lib.want b (hw .want)).mpr ⟨hm, hd⟩, rfl⟩)
      | finished => exact Or.inr ⟨b, (key lib.finished b (hw .finished)).mpr ⟨hm, hd⟩, rfl⟩
  · intro now
    rfl

/-- C9 witness: end-to-end scenario B.  Local b1 on current with
progress 40 and no serverId; the empty snapshot merge leaves the
collection unchanged and b1 is selected for upload. -/
theorem c9_witness :
    ((bookB1Progress, Shelf.current) ∈ LibraryManager.itemsToSync libCurrentB1P
      ↔ bookB1Progress ∈ libCurrentB1P.get .current ∧ bookB1Progress.db_id = none)
    ∧ LibraryManager.mergeRemoteIntoLocal "now" libCurrentB1P [] = libCurrentB1P :=
  ⟨(c9_push_selection libCurrentB1P
      (by
        intro sh b hb
        cases sh <;> simp [libCurrentB1P, Library.get] at hb
        subst hb
        decide)).1 bookB1Progress .current,
    (c9_push_selection libCurrentB1P
      (by
        intro sh b hb
        cases sh <;> simp [libCurrentB1P, Library.get] at hb
        subst hb
        decide)).2 "now"⟩

open LibraryManager in
/-- C10: removeBook behaviour.  When exactly one record carries the id,
on shelf s, the call returns true, removes exactly that record from
exactly that shelf (the shelf shrinks by one, keeps every other record,
and no record with the id remains anywhere), the other shelves are
untouched, and the persisted copy equals the new in-memory library.
When no shelf holds the id, the call returns false and leaves the whole
state, the persisted copy included, unchanged. -/
theorem c10_remove_behaviour (st : LMState) (id : String) :
    (∀ (s : Shelf) (b : Book), idRecords (st.library.get s) id = [b] →
      (∀ sh, sh ≠ s → idRecords (st.library.get sh) id = []) →
      (removeBookState st id).1 = true
      ∧ (∀ sh, idRecords ((removeBookState st id).2.library.get sh) id = [])
      ∧ (∀ sh, sh ≠ s → (removeBookState st id).2.library.get sh = st.library.get sh)
      ∧ ((removeBookState st id).2.library.get s).length + 1 = (st.library.get s).length
      ∧ (∀ x ∈ st.library.get s, x.id ≠ id → x ∈ (removeBookState st id).2.library.get s)
      ∧ (removeBookState st id).2.stored = (removeBookState st id).2.library)
    ∧ ((∀ sh, idRecords (st.library.get sh) id = []) →
      removeBookState st id = (false, st)) := by
  constructor
  · intro s b hs hother
    have hf : findBookInShelf st.library id = some (s, b) :=
      findBookInShelf_of_idRecords st.library id s b [] hs hother
    have heq : removeBookState st id
        = (true, ⟨st.library.set s ((st.library.get s).filter (fun x => x.id ≠ id)),
            st.library.set s ((st.library.get s).filter (fun x => x.id ≠ id))⟩) := by
      unfold removeBookState
      rw [hf]
    rw [heq]
    refine ⟨rfl, ?_, ?_, ?_, ?_, rfl⟩
    · intro sh
      by_cases hsh : sh = s
      · subst hsh
        rw [Library.get_set_same]
        exact idRecords_filter_self _ _
      · rw [Library.get_set_other _ _ _ _ hsh]
        exact hother sh hsh
    · intro sh hsh
      exact Library.get_set_other _ _ _ _ hsh
    · rw [Library.get_set_same]
      have hlen := length_filter_ne_add_countId (st.library.get s) id
      have hc : countId (st.library.get s) id = 1 := by
        unfold countId
        rw [hs]
        rfl
      omega
    · intro x hx hne
      rw [Library.get_set_same]
      exact mem_filter_ne _ hx hne
  · intro hall
    have h1 : idRecords st.library.current id = [] := hall .current
    have h2 : idRecords st.library.want id = [] := hall .want
    have h3 : idRecords st.library.finished id = [] := hall .finished
    have hf : findBookInShelf st.library id = none := by
      unfold findBookInShelf
      rw [find?_eq_none_of_idRecords_nil h1, find?_eq_none_of_idRecords_nil h2,
        find?_eq_none_of_idRecords_nil h3]
    unfold removeBookState
    rw [hf]

/-- C10 witness: removing b1 from a state holding only b1 on want
returns true, clears b1 everywhere, leaves the other shelves untouched,
shrinks want by one and persists the result; the instantiation uses the
found branch of the contract. -/
theorem c10_witness :
    (LibraryManager.removeBookState ⟨libWantB1, libWantB1⟩ "b1").1 = true
    ∧ (∀ sh, idRecords
        ((LibraryManager.removeBookState ⟨libWantB1, libWantB1⟩ "b1").2.library.get sh)
        "b1" = [])
    ∧ (∀ sh, sh ≠ Shelf.want →
        (LibraryManager.removeBookState ⟨libWantB1, libWantB1⟩ "b1").2.library.get sh
          = libWantB1.get sh)
    ∧ ((LibraryManager.removeBookState ⟨libWantB1, libWantB1⟩ "b1").2.library.get
        .want).length + 1 = (libWantB1.get .want).length
    ∧ (∀ x ∈ libWantB1.get .want, x.id ≠ "b1" →
        x ∈ (LibraryManager.removeBookState ⟨libWantB1, libWantB1⟩ "b1").2.library.get .want)
    ∧ (LibraryManager.removeBookState ⟨libWantB1, libWantB1⟩ "b1").2.stored
        = (LibraryManager.removeBookState ⟨libWantB1, libWantB1⟩ "b1").2.library :=
  (c10_remove_behaviour ⟨libWantB1, libWantB1⟩ "b1").1 .want bookB1 (by decide)
    (by
      intro sh hsh
      cases sh <;> first
        | exact absurd rfl hsh
        | rfl)

end BiblioDrift
